import Mathlib

/-!
Verification of `multiscale_read`, a read-only sequence interface over
multiscale (image pyramid) datasets.

The Python sources are shallowly embedded: numeric values (numpy floats)
are modelled as exact rationals `ℚ`, Python exceptions as an error type
`PyErr` threaded through `Except`, Python dicts as association lists in
insertion order, and Python lists as Lean lists.  Each definition carries
a comment naming the source function it embeds.
-/

/-- Python exception classes raised by the code under study.  `validation`
stands for `pydantic.ValidationError` (pydantic wraps every field-presence
failure and every `ValueError` raised inside a validator in a
`ValidationError`).  `inconsistent` and `nonMonotonic` are the two
distinct `ValueError`s raised by `ArrayInfo.from_xarray`;
`dimensionality` is the `ValueError("Inconsistent dimensionality")` raised
by `to_coords`; `zeroSizeReduction` is numpy's error for reducing an empty
array; `loopGas` marks exhaustion of the fuel of a modelled `while` loop
(never reached in any run reasoned about below). -/
inductive PyErr where
  | indexError
  | keyError
  | typeError
  | validation
  | inconsistent
  | nonMonotonic
  | dimensionality
  | zeroSizeReduction
  | loopGas
  deriving DecidableEq, Repr

/-- `MultiscaleBase._get_item` (base.py:14-16): the shared bounds check
`if not (-len(self) < idx < len(self)): raise IndexError`. -/
def baseGetItemCheck (n : Nat) (idx : Int) : Except PyErr Unit :=
  if -(n : Int) < idx ∧ idx < (n : Int) then .ok () else .error .indexError

/-- Python's built-in `list.__getitem__` with an integer index: a negative
index is shifted by the length, and any resulting position outside
`[0, len)` raises `IndexError`. -/
def pyListGet (xs : List α) (i : Int) : Except PyErr α :=
  let j : Int := if i < 0 then i + xs.length else i
  if h : 0 ≤ j ∧ j < (xs.length : Int) then .ok (xs.get ⟨j.toNat, by omega⟩)
  else .error .indexError

/-- `OmeMultiscale._get_item` (ome.py:38-52): the base bounds check, then
`self.multiscales.datasets[idx]` (a Python list index).  We return the
dataset record selected for the level; wrapping it into a labeled array
only re-packages that record with the backend array. -/
def omeGetItem (datasets : List α) (idx : Int) : Except PyErr α := do
  let _ ← baseGetItemCheck datasets.length idx
  pyListGet datasets idx

/-- Python dict lookup `group[key]`: first matching key, else `KeyError`. -/
def dictLookup (d : List (String × α)) (k : String) : Except PyErr α :=
  match d.find? (fun kv => kv.1 == k) with
  | some kv => .ok kv.2
  | none => .error .keyError

/-- The zarr group backing `NglN5Multiscale`: level datasets are named
`s0, s1, ..., s{N-1}` (ngl_n5.py:207), keyed by the decimal level index. -/
def nglGroup (levels : List α) : List (String × α) :=
  ((List.range levels.length).zip levels).map (fun p => (s!"s{p.1}", p.2))

/-- `NglN5Multiscale._get_item` (ngl_n5.py:243-248): the base bounds
check, then `self.group[f"s{idx}"]`.  The key is formatted from the raw
(possibly negative) index, so a negative index produces a key such as
`"s-1"` that matches no dataset. -/
def nglGetItem (levels : List α) (idx : Int) : Except PyErr α := do
  let _ ← baseGetItemCheck levels.length idx
  dictLookup (nglGroup levels) s!"s{idx}"

/-- `slice.indices(length)` exactly as CPython's `PySlice_GetIndicesEx`
computes it for a non-zero step: clamp start/stop into the valid window
for the sign of the step, with `none` meaning an omitted bound. -/
def sliceIndices (st sp stepOpt : Option Int) (n : Nat) : Except PyErr (Int × Int × Int) :=
  let step := stepOpt.getD 1
  if step = 0 then .error .validation
  else
    let lower : Int := if step < 0 then -1 else 0
    let upper : Int := if step < 0 then (n : Int) - 1 else (n : Int)
    let start : Int :=
      match st with
      | none => if step < 0 then upper else lower
      | some s => if s < 0 then max (s + n) lower else min s upper
    let stop : Int :=
      match sp with
      | none => if step < 0 then lower else upper
      | some s => if s < 0 then max (s + n) lower else min s upper
    .ok (start, stop, step)

/-- The body of `MultiscaleBase.__getitem__`'s slice branch (base.py:24-29):
`while start < stop: out.append(self._get_item(start)); start += stride`.
The loop is written with explicit fuel; every execution reasoned about
below terminates long before the fuel runs out (the Python loop either
reaches `start >= stop` or `_get_item` raises). -/
def whileAppendLoop (datasets : List α) : Nat → Int → Int → Int → Except PyErr (List α)
  | 0, _, _, _ => .error .loopGas
  | Nat.succ fuel, start, stop, stride =>
    if start < stop then
      match omeGetItem datasets start with
      | .error e => .error e
      | .ok x =>
        match whileAppendLoop datasets fuel (start + stride) stop stride with
        | .error e => .error e
        | .ok xs => .ok (x :: xs)
    else .ok []

/-- `MultiscaleBase.__getitem__` with a slice argument (base.py:18-29),
bound to the chain-dialect item getter. -/
def omeGetSlice (datasets : List α) (st sp stepOpt : Option Int) : Except PyErr (List α) := do
  let (start, stop, stride) ← sliceIndices st sp stepOpt datasets.length
  whileAppendLoop datasets
    ((stop - start).natAbs + start.natAbs + datasets.length + 2) start stop stride

theorem baseGetItemCheck_ok_iff (n : Nat) (idx : Int) :
    baseGetItemCheck n idx = .ok () ↔ (-(n : Int) < idx ∧ idx < (n : Int)) := by
  unfold baseGetItemCheck
  split <;> simp_all

theorem baseGetItemCheck_error_iff (n : Nat) (idx : Int) :
    baseGetItemCheck n idx = .error .indexError ↔ ¬(-(n : Int) < idx ∧ idx < (n : Int)) := by
  unfold baseGetItemCheck
  split <;> simp_all

theorem pyListGet_ok_of_lt (xs : List α) (i : Int) (h0 : 0 ≤ i) (h1 : i < (xs.length : Int)) :
    pyListGet xs i = .ok (xs.get ⟨i.toNat, by omega⟩) := by
  unfold pyListGet
  have hneg : ¬ i < 0 := by omega
  simp only [hneg, if_false]
  split
  · rfl
  · omega

theorem pyListGet_ok_of_neg (xs : List α) (i : Int) (h0 : -(xs.length : Int) < i) (h1 : i < 0) :
    pyListGet xs i = .ok (xs.get ⟨(i + xs.length).toNat, by omega⟩) := by
  unfold pyListGet
  simp only [h1, if_true]
  split
  · rfl
  · omega

/-- No output of `Nat.digitChar` is the minus sign. -/
theorem digitChar_ne_minus (d : Nat) : Nat.digitChar d ≠ '-' := by
  rcases Nat.lt_or_ge d 16 with h | h
  · interval_cases d <;> decide
  · unfold Nat.digitChar
    repeat rw [if_neg (by omega)]
    decide

/-- Every character `Nat.toDigitsCore` emits beyond its accumulator is a
`Nat.digitChar`. -/
theorem toDigitsCore_mem (b : Nat) :
    ∀ (f n : Nat) (acc : List Char) (c : Char),
      c ∈ Nat.toDigitsCore b f n acc → c ∈ acc ∨ ∃ d, c = Nat.digitChar d := by
  intro f
  induction f with
  | zero =>
    intro n acc c h
    exact Or.inl h
  | succ f ih =>
    intro n acc c h
    rw [show Nat.toDigitsCore b (f + 1) n acc =
        (if n / b = 0 then (n % b).digitChar :: acc
         else Nat.toDigitsCore b f (n / b) ((n % b).digitChar :: acc)) from rfl] at h
    split at h
    · rcases List.mem_cons.mp h with rfl | hacc
      · exact Or.inr ⟨n % b, rfl⟩
      · exact Or.inl hacc
    · rcases ih (n / b) ((n % b).digitChar :: acc) c h with hacc | hd
      · rcases List.mem_cons.mp hacc with rfl | hacc2
        · exact Or.inr ⟨n % b, rfl⟩
        · exact Or.inl hacc2
      · exact Or.inr hd

/-- The decimal representation of a nonnegative number never equals the
representation of a negative one: `Int.repr` of a negative integer starts
with `'-'`, which `Nat.repr` (all digit characters) never contains. -/
theorem intRepr_neg_ne_natRepr (i : Int) (hi : i < 0) (j : Nat) :
    Int.repr i ≠ Nat.repr j := by
  cases i with
  | ofNat m => exact absurd hi (not_lt.mpr (Int.ofNat_nonneg m))
  | negSucc m =>
    intro heq
    have hdata : '-' :: (Nat.repr (m + 1)).data = Nat.toDigits 10 j :=
      congrArg String.data heq
    have hmem : '-' ∈ Nat.toDigits 10 j := by
      rw [← hdata]
      exact List.mem_cons_self _ _
    rcases toDigitsCore_mem 10 (j + 1) j [] '-' hmem with habs | ⟨d, hd⟩
    · exact absurd habs (List.not_mem_nil _)
    · exact digitChar_ne_minus d hd.symm

/-- The data of a formatted key `s!"s{x}"`: an `'s'` followed by the
value's string representation. -/
theorem skey_data_int (i : Int) : (s!"s{i}").data = 's' :: (toString i).data :=
  List.append_nil ('s' :: (toString i).data)

/-- As `skey_data_int`, for the `Nat`-indexed keys of the group model. -/
theorem skey_data_nat (j : Nat) : (s!"s{j}").data = 's' :: (toString j).data :=
  List.append_nil ('s' :: (toString j).data)

/-- An in-range negative index passes the shared bounds check but then
fails the `group[f"s{idx}"]` lookup: the formatted key carries a minus
sign and matches none of the keys `s0..s{n-1}`. -/
theorem nglGetItem_neg_keyError (xs : List α) (i : Int)
    (h0 : -(xs.length : Int) < i) (h1 : i < 0) :
    nglGetItem xs i = .error .keyError := by
  have hchk := (baseGetItemCheck_ok_iff xs.length i).mpr ⟨h0, by omega⟩
  rw [show nglGetItem xs i = dictLookup (nglGroup xs) s!"s{i}" from by
    simp [nglGetItem, hchk, Bind.bind, Except.bind]]
  unfold dictLookup
  have hnone : List.find? (fun kv => kv.1 == s!"s{i}") (nglGroup xs) = none := by
    rw [List.find?_eq_none]
    intro kv hkv
    simp only [nglGroup, List.mem_map] at hkv
    obtain ⟨q, hq, rfl⟩ := hkv
    simp only [beq_iff_eq]
    intro heq
    have hd := congrArg String.data heq
    rw [skey_data_nat, skey_data_int] at hd
    injection hd with hhead htail
    exact intRepr_neg_ne_natRepr i h1 q.1 (String.ext htail).symm
  rw [hnone]

/-- C1 counterexample: the claim says a negative index `i` with
`-n ≤ i < 0` resolves to level `n + i` on every facade.  In the code the
shared bounds check `-len < idx < len` is strict, so `get(-3)` on a
chain-dialect facade of length 3 raises `IndexError` instead of
returning the first level; and on a viewer-dialect facade `get(-1)`
raises `KeyError` (dataset key `"s-1"`) instead of returning the last
level. -/
theorem claim1_counterexample :
    (omeGetItem ["a", "b", "c"] (-3) = .error PyErr.indexError ∧
      Except.error PyErr.indexError ≠ (Except.ok "a" : Except PyErr String)) ∧
    (nglGetItem ["a", "b", "c"] (-1) = .error PyErr.keyError ∧
      Except.error PyErr.keyError ≠ (Except.ok "c" : Except PyErr String)) := by
  refine ⟨⟨by rfl, fun h => Except.noConfusion h⟩,
    ⟨by rfl, fun h => Except.noConfusion h⟩⟩

/-- C1 (amended): `get(i)` fails with `IndexError` exactly when `i` is
outside the strict open interval `(-n, n)` (so `-n` itself raises, unlike
Python's `[-n, n)` convention), in both dialects; an in-range negative
index resolves Python-style to level `n + i` in the chain dialect only —
in the viewer dialect every in-range negative index instead fails the
`group[f"s{idx}"]` dataset lookup with `KeyError`, the formatted key
(e.g. `"s-1"`) matching none of the datasets `s0..s{n-1}`. -/
theorem claim1_get_index_bounds (xs : List α) (i : Int) :
    (omeGetItem xs i = .error .indexError ↔
      ¬(-(xs.length : Int) < i ∧ i < (xs.length : Int))) ∧
    (nglGetItem xs i = .error .indexError ↔
      ¬(-(xs.length : Int) < i ∧ i < (xs.length : Int))) ∧
    (∀ _h0 : -(xs.length : Int) < i, ∀ _h1 : i < 0,
        omeGetItem xs i = .ok (xs.get ⟨(i + xs.length).toNat, by omega⟩)) ∧
    (∀ _h0 : 0 ≤ i, ∀ _h1 : i < (xs.length : Int),
        omeGetItem xs i = .ok (xs.get ⟨i.toNat, by omega⟩)) ∧
    (∀ _h0 : -(xs.length : Int) < i, ∀ _h1 : i < 0,
        nglGetItem xs i = .error .keyError) := by
  refine ⟨?_, ?_, ?_, ?_, fun h0 h1 => nglGetItem_neg_keyError xs i h0 h1⟩
  · constructor
    · intro h
      by_contra hin
      have hchk := (baseGetItemCheck_ok_iff xs.length i).mpr hin
      rcases lt_or_le i 0 with hneg | hpos
      · rw [show omeGetItem xs i = pyListGet xs i by
          simp [omeGetItem, hchk, Bind.bind, Except.bind],
          pyListGet_ok_of_neg xs i hin.1 hneg] at h
        exact Except.noConfusion h
      · rw [show omeGetItem xs i = pyListGet xs i by
          simp [omeGetItem, hchk, Bind.bind, Except.bind],
          pyListGet_ok_of_lt xs i hpos hin.2] at h
        exact Except.noConfusion h
    · intro hout
      have hchk := (baseGetItemCheck_error_iff xs.length i).mpr hout
      simp [omeGetItem, hchk, Bind.bind, Except.bind]
  · constructor
    · intro h
      by_contra hin
      have hchk := (baseGetItemCheck_ok_iff xs.length i).mpr hin
      rw [show nglGetItem xs i = dictLookup (nglGroup xs) s!"s{i}" by
        simp [nglGetItem, hchk, Bind.bind, Except.bind]] at h
      unfold dictLookup at h
      rcases hf : List.find? (fun kv => kv.1 == s!"s{i}") (nglGroup xs) with _ | kv <;>
        simp [hf] at h
    · intro hout
      have hchk := (baseGetItemCheck_error_iff xs.length i).mpr hout
      simp [nglGetItem, hchk, Bind.bind, Except.bind]
  · intro h0 h1
    have hchk := (baseGetItemCheck_ok_iff xs.length i).mpr ⟨h0, by omega⟩
    rw [show omeGetItem xs i = pyListGet xs i by
      simp [omeGetItem, hchk, Bind.bind, Except.bind]]
    exact pyListGet_ok_of_neg xs i h0 h1
  · intro h0 h1
    have hchk := (baseGetItemCheck_ok_iff xs.length i).mpr ⟨by omega, h1⟩
    rw [show omeGetItem xs i = pyListGet xs i by
      simp [omeGetItem, hchk, Bind.bind, Except.bind]]
    exact pyListGet_ok_of_lt xs i h0 h1

/-- C1 witness: the amended behaviour at concrete inputs — on a length-3
facade, index `-2` yields level 1 in the chain dialect and `KeyError` in
the viewer dialect, and index `-3` is rejected by the bounds check. -/
theorem claim1_witness :
    (omeGetItem ["a", "b", "c"] (-2) = .error .indexError ↔
      ¬(-((["a", "b", "c"] : List String).length : Int) < -2 ∧
        (-2 : Int) < ((["a", "b", "c"] : List String).length : Int))) ∧
    omeGetItem ["a", "b", "c"] (-2) = .ok "b" ∧
    nglGetItem ["a", "b", "c"] (-2) = .error .keyError := by
  refine ⟨(claim1_get_index_bounds ["a", "b", "c"] (-2)).1, ?_, ?_⟩
  · exact (claim1_get_index_bounds ["a", "b", "c"] (-2)).2.2.1 (by decide) (by decide)
  · exact (claim1_get_index_bounds ["a", "b", "c"] (-2)).2.2.2.2 (by decide) (by decide)

/-- C5: `__getitem__` with the reversed slice `[::-1]` on a facade of
length 3.  `slice(None, None, -1).indices(3) = (2, -1, -1)`, and the
loop condition `while start < stop` is immediately false for the
negative stride, so the code returns the empty list — not the three
levels in reverse order that repeated `get` at indices 2, 1, 0 would
produce. -/
theorem claim5_negative_stride_failing_eval :
    omeGetSlice [10, 20, 30] none none (some (-1)) = .ok ([] : List Nat) ∧
    [omeGetItem [10, 20, 30] 2, omeGetItem [10, 20, 30] 1, omeGetItem [10, 20, 30] 0] =
      [.ok 30, .ok 20, .ok 10] ∧
    ([] : List Nat) ≠ [30, 20, 10] := by
  refine ⟨by rfl, by rfl, by decide⟩

/-! ## Chain-dialect (OME-NGFF) metadata and dimension reversal -/

/-- One axis record of the chain dialect (`multiscales[].axes[]`):
name plus optional type and unit. -/
structure NgffAxis where
  name : String
  type : Option String
  unit : Option String
  deriving DecidableEq, Repr

/-- `pydantic_ome_ngff` coordinate transformations: a vector scale, a
vector translation, or any other transform kind (e.g. identity or
path-based), which `reverse_coordinate_transformation` leaves untouched. -/
inductive CoordinateTransform where
  | vectorScale (scale : List ℚ)
  | vectorTranslation (translation : List ℚ)
  | otherTransform (kind : String)
  deriving DecidableEq, Repr

/-- One `multiscales[].datasets[]` record: a path plus its transformation
chain. -/
structure NgffDataset where
  path : String
  coordinateTransformations : List CoordinateTransform
  deriving DecidableEq, Repr

/-- One `multiscales[]` record: axes, per-level datasets, and an optional
global transformation chain. -/
structure Multiscale where
  axes : List NgffAxis
  datasets : List NgffDataset
  coordinateTransformations : Option (List CoordinateTransform)
  deriving DecidableEq, Repr

/-- The top-level `multiscales` attribute object. -/
structure MultiscaleAttrs where
  multiscales : List Multiscale
  deriving DecidableEq, Repr

/-- `reverse_coordinate_transformation` (utils.py:10-25), value level:
reverse the per-axis vector of a scale or translation transform, leave
any other transform unchanged. -/
def reverse_coordinate_transformation : CoordinateTransform → CoordinateTransform
  | .vectorScale v => .vectorScale v.reverse
  | .vectorTranslation v => .vectorTranslation v.reverse
  | .otherTransform k => .otherTransform k

/-- The effect of the per-dataset loop of `reverse_multiscale`
(utils.py:42-44) on one dataset: every transform of its chain reversed. -/
def reverse_dataset (d : NgffDataset) : NgffDataset :=
  { d with coordinateTransformations :=
      d.coordinateTransformations.map reverse_coordinate_transformation }

/-- `reverse_multiscale` (utils.py:28-46), value level: reverse the axis
list, reverse every global transform (when the optional global chain is
present), and reverse every transform of every dataset. -/
def reverse_multiscale (m : Multiscale) : Multiscale :=
  { m with
      axes := m.axes.reverse
      coordinateTransformations :=
        m.coordinateTransformations.map (List.map reverse_coordinate_transformation)
      datasets := m.datasets.map reverse_dataset }

/-- `reverse_multiscale_attrs` (utils.py:49-62), value level: reverse
every contained multiscale. -/
def reverse_multiscale_attrs (a : MultiscaleAttrs) : MultiscaleAttrs :=
  { a with multiscales := a.multiscales.map reverse_multiscale }

theorem reverse_coordinate_transformation_invol (t : CoordinateTransform) :
    reverse_coordinate_transformation (reverse_coordinate_transformation t) = t := by
  cases t <;> simp [reverse_coordinate_transformation]

theorem reverse_dataset_invol (d : NgffDataset) :
    reverse_dataset (reverse_dataset d) = d := by
  cases d with
  | mk p cts =>
    simp [reverse_dataset, List.map_map, Function.comp_def,
      reverse_coordinate_transformation_invol]

/-- C8: applying the dimension-reversal operation twice restores the
original chain-dialect metadata — axis order and every per-axis vector of
every scale and translation transform, global and per-dataset —
bit-for-bit. -/
theorem claim8_reverse_involution (m : Multiscale) :
    reverse_multiscale (reverse_multiscale m) = m := by
  cases m with
  | mk axes datasets cts =>
    simp only [reverse_multiscale, List.reverse_reverse]
    refine congrArg₂ (Multiscale.mk axes) ?_ ?_
    · simp [List.map_map, Function.comp_def, reverse_dataset_invol]
    · cases cts with
      | none => rfl
      | some l =>
        simp [List.map_map, Function.comp_def,
          reverse_coordinate_transformation_invol]

/-! ### Reference semantics of the `inplace` flag

`reverse_multiscale(m, inplace=False)` first deep-copies `m` and then
mutates only the copy, returning it; with `inplace=True` it mutates (and
returns) `m` itself.  To state this frame property we model Python's
object store explicitly: a store maps object ids to values, a deep copy
allocates a fresh id carrying the same value, and in-place mutation
rewrites the value held at an id. -/

/-- Look an object up in a store by id. -/
def storeGet (s : List (Nat × α)) (i : Nat) : Option α :=
  (s.find? (fun p => p.1 == i)).map Prod.snd

/-- Overwrite the value held at id `i` (Python in-place mutation). -/
def storeSet (s : List (Nat × α)) (i : Nat) (v : α) : List (Nat × α) :=
  s.map (fun p => if p.1 == i then (i, v) else p)

/-- The shared shape of `reverse_multiscale` / `reverse_multiscale_attrs`
(utils.py:28-62) over the object store: `rev` is the value-level effect
of the function's mutations.  With `inplace=True` the object at `i` is
rewritten and its own id returned; with `inplace=False` a deep copy is
allocated at the fresh id, the mutations apply to the copy, and the
copy's id is returned.  Returns the updated store and the returned
object's id. -/
def reverseRefCall (rev : α → α) (s : List (Nat × α)) (i : Nat) (inplace : Bool)
    (freshId : Nat) : List (Nat × α) × Nat :=
  match storeGet s i with
  | none => (s, i)
  | some v =>
    if inplace then (storeSet s i (rev v), i)
    else (storeSet (s ++ [(freshId, v)]) freshId (rev v), freshId)

theorem storeGet_nil (i : Nat) : storeGet ([] : List (Nat × α)) i = none := rfl

theorem storeGet_cons (q : Nat × α) (t : List (Nat × α)) (i : Nat) :
    storeGet (q :: t) i = if q.1 = i then some q.2 else storeGet t i := by
  by_cases h : q.1 = i
  · simp [storeGet, List.find?, h]
  · have hb : (q.1 == i) = false := by simp [h]
    simp [storeGet, List.find?, h, hb]

theorem storeSet_append_single (s : List (Nat × α)) (p : Nat × α) (f : Nat) (v rv : α) :
    storeSet ((p :: s) ++ [(f, v)]) f rv
      = (if p.1 == f then (f, rv) else p) :: storeSet (s ++ [(f, v)]) f rv := rfl

theorem storeGet_storeSet_append_ne (s : List (Nat × α)) (i f : Nat) (v rv : α)
    (hne : i ≠ f) :
    storeGet (storeSet (s ++ [(f, v)]) f rv) i = storeGet s i := by
  induction s with
  | nil =>
    rw [show storeSet ([] ++ [(f, v)]) f rv = [(f, rv)] from by simp [storeSet]]
    rw [storeGet_cons, if_neg (Ne.symm hne)]
  | cons p rest ih =>
    rw [storeSet_append_single]
    by_cases hp : p.1 = f
    · rw [if_pos (beq_iff_eq.mpr hp), storeGet_cons,
        if_neg (Ne.symm hne), storeGet_cons,
        if_neg (by rw [hp]; exact Ne.symm hne)]
      exact ih
    · rw [if_neg (by simp [hp]), storeGet_cons, storeGet_cons]
      by_cases hip : p.1 = i
      · rw [if_pos hip, if_pos hip]
      · rw [if_neg hip, if_neg hip]
        exact ih

theorem storeGet_storeSet_append_self (s : List (Nat × α)) (f : Nat) (v rv : α)
    (hfresh : ∀ p ∈ s, p.1 ≠ f) :
    storeGet (storeSet (s ++ [(f, v)]) f rv) f = some rv := by
  induction s with
  | nil =>
    rw [show storeSet ([] ++ [(f, v)]) f rv = [(f, rv)] from by simp [storeSet]]
    rw [storeGet_cons, if_pos rfl]
  | cons p rest ih =>
    have hp : p.1 ≠ f := hfresh p (List.mem_cons_self p rest)
    rw [storeSet_append_single, if_neg (by simp [hp]), storeGet_cons, if_neg hp]
    exact ih (fun q hq => hfresh q (List.mem_cons_of_mem p hq))

/-- C9: calling a reversal operation with `in_place=False` leaves the
original object untouched in the store (every field, at every nesting
level, since the value is copied whole before any mutation), and returns
a distinct new object (a fresh id) holding the reversed data.  Stated for
both `reverse_multiscale` and `reverse_multiscale_attrs`. -/
theorem claim9_reverse_copy_frame
    (s : List (Nat × Multiscale)) (sa : List (Nat × MultiscaleAttrs))
    (i ia freshId freshIda : Nat) (m : Multiscale) (a : MultiscaleAttrs)
    (hm : storeGet s i = some m) (ha : storeGet sa ia = some a)
    (hfresh : ∀ p ∈ s, p.1 ≠ freshId) (hfresha : ∀ p ∈ sa, p.1 ≠ freshIda)
    (hi : i ≠ freshId) (hia : ia ≠ freshIda) :
    (storeGet (reverseRefCall reverse_multiscale s i false freshId).1 i = some m ∧
      (reverseRefCall reverse_multiscale s i false freshId).2 ≠ i ∧
      storeGet (reverseRefCall reverse_multiscale s i false freshId).1
          (reverseRefCall reverse_multiscale s i false freshId).2 =
        some (reverse_multiscale m)) ∧
    (storeGet (reverseRefCall reverse_multiscale_attrs sa ia false freshIda).1 ia = some a ∧
      (reverseRefCall reverse_multiscale_attrs sa ia false freshIda).2 ≠ ia ∧
      storeGet (reverseRefCall reverse_multiscale_attrs sa ia false freshIda).1
          (reverseRefCall reverse_multiscale_attrs sa ia false freshIda).2 =
        some (reverse_multiscale_attrs a)) := by
  constructor
  · simp only [reverseRefCall, hm, if_neg Bool.false_ne_true]
    refine ⟨(storeGet_storeSet_append_ne s i freshId m (reverse_multiscale m) hi).trans hm,
      fun h => hi h.symm,
      storeGet_storeSet_append_self s freshId m (reverse_multiscale m) hfresh⟩
  · simp only [reverseRefCall, ha, if_neg Bool.false_ne_true]
    refine ⟨(storeGet_storeSet_append_ne sa ia freshIda a (reverse_multiscale_attrs a) hia).trans ha,
      fun h => hia h.symm,
      storeGet_storeSet_append_self sa freshIda a (reverse_multiscale_attrs a) hfresha⟩

/-! ## Unit Normalizer: `transmute_coords` (ome.py:58-79) -/

/-- The attribute dict of one coordinate descriptor, split into the two
unit-bearing keys (`"unit"`, written by the upstream transform resolver,
and `"units"`, the canonical key) and the remaining entries. -/
structure CoordAttrs where
  unit : Option String
  units : Option String
  other : List (String × String)
  deriving DecidableEq, Repr

/-- One coordinate descriptor (an `xr.DataArray` used as a coordinate):
axis name, coordinate values, attributes. -/
structure CoordDescriptor where
  name : String
  values : List ℚ
  attrs : CoordAttrs
  deriving DecidableEq, Repr

/-- The unit-key normalization applied to one descriptor by the loop body
of `transmute_coords` (ome.py:71-74): if the `"unit"` key is present its
value is copied to `"units"` and the `"unit"` key deleted.  The
subsequent `pint.quantify()` promotion (ome.py:76-77) is an external
capability of the `pint_xarray` collaborator and is outside this model;
it touches the numeric wrapper, not the unit keys normalized here. -/
def transmute_one (c : CoordDescriptor) : CoordDescriptor :=
  match c.attrs.unit with
  | some u => { c with attrs := { unit := none, units := some u, other := c.attrs.other } }
  | none => c

/-- `transmute_coords` (ome.py:58-79): normalize every descriptor of the
list in order. -/
def transmute_coords (coords : List CoordDescriptor) : List CoordDescriptor :=
  coords.map transmute_one

/-- C10: unit normalization leaves each descriptor with at most one unit
key; when the alternate `"unit"` key is present its value ends up under
the canonical `"units"` key (overwriting any previous value there) and
the alternate key is removed, with name, values and the other attribute
entries untouched; a descriptor without the alternate key is unchanged.
The normalized list pairs up positionally with the input. -/
theorem claim10_transmute_units (coords : List CoordDescriptor) (i : Nat)
    (h : i < coords.length) :
    (transmute_coords coords).get? i = some (transmute_one coords[i]) ∧
    ∀ c : CoordDescriptor,
      ((transmute_one c).attrs.unit = none ∨ (transmute_one c).attrs.units = none) ∧
      (∀ u, c.attrs.unit = some u →
        transmute_one c =
          { c with attrs := { unit := none, units := some u, other := c.attrs.other } }) ∧
      (c.attrs.unit = none → transmute_one c = c) := by
  constructor
  · rw [show transmute_coords coords = coords.map transmute_one from rfl]
    rw [List.get?_eq_getElem? , List.getElem?_map]
    rw [List.getElem?_eq_getElem h]
    rfl
  · intro c
    refine ⟨?_, ?_, ?_⟩
    · rcases hu : c.attrs.unit with _ | u
      · rcases hus : c.attrs.units with _ | us
        · right
          simp [transmute_one, hu, hus]
        · left
          simp [transmute_one, hu]
      · left
        simp [transmute_one, hu]
    · intro u hu
      simp [transmute_one, hu]
    · intro hu
      simp [transmute_one, hu]

/-- C10 witness: a descriptor carrying both keys (`unit="nm"`,
`units="m"`) retains only the canonical key with the alternate's value. -/
theorem claim10_witness :
    (transmute_coords [⟨"x", [0, 1], ⟨some "nm", some "m", []⟩⟩]).get? 0 =
      some (transmute_one ⟨"x", [0, 1], ⟨some "nm", some "m", []⟩⟩) ∧
    transmute_one ⟨"x", [0, 1], ⟨some "nm", some "m", []⟩⟩ =
      ⟨"x", [0, 1], ⟨none, some "nm", []⟩⟩ := by
  constructor
  · exact (claim10_transmute_units [⟨"x", [0, 1], ⟨some "nm", some "m", []⟩⟩] 0
      (by decide)).1
  · exact ((claim10_transmute_units [⟨"x", [0, 1], ⟨some "nm", some "m", []⟩⟩] 0
      (by decide)).2 ⟨"x", [0, 1], ⟨some "nm", some "m", []⟩⟩).2.1 "nm" rfl

/-! ## `ArrayInfo.from_xarray` resolution derivation (utils.py:94-136) -/

/-- `DEFAULT_RTOL = 1e-5` (utils.py:65). -/
def DEFAULT_RTOL : ℚ := 1 / 100000

/-- `DEFAULT_ATOL = 1e-8` (utils.py:66). -/
def DEFAULT_ATOL : ℚ := 1 / 100000000

/-- `np.diff`: consecutive differences of a 1-d array. -/
def npDiff (xs : List ℚ) : List ℚ := List.zipWith (fun a b => b - a) xs xs.tail

/-- Insert into a ≤-sorted list, keeping it sorted. -/
def insertSorted (x : ℚ) : List ℚ → List ℚ
  | [] => [x]
  | y :: ys => if x ≤ y then x :: y :: ys else y :: insertSorted x ys

/-- Ascending insertion sort (the sort performed by `np.unique`). -/
def sortAsc : List ℚ → List ℚ
  | [] => []
  | x :: xs => insertSorted x (sortAsc xs)

/-- Collapse adjacent duplicates of a sorted list. -/
def dedupAdj : List ℚ → List ℚ
  | [] => []
  | x :: rest =>
    match rest with
    | [] => [x]
    | y :: _ => if x = y then dedupAdj rest else x :: dedupAdj rest

/-- `np.unique`: the sorted distinct values of an array. -/
def npUnique (xs : List ℚ) : List ℚ := dedupAdj (sortAsc xs)

/-- numpy's `min` reduction over a nonempty array (the default `0` is
never used under the nonemptiness hypotheses below). -/
def foldMin : List ℚ → ℚ
  | [] => 0
  | x :: xs => xs.foldl min x

/-- numpy's `max` reduction over a nonempty array. -/
def foldMax : List ℚ → ℚ
  | [] => 0
  | x :: xs => xs.foldl max x

/-- The trailing check of the per-axis loop (utils.py:131-132):
`if res <= 0: raise ValueError("Resolution is not monotonically increasing")`. -/
def resCheck (r : ℚ) : Except PyErr ℚ :=
  if r ≤ 0 then .error .nonMonotonic else .ok r

/-- The resolution derivation for one numeric coordinate axis
(utils.py:116-134).  With `rel_abs_tolerances=None` the resolution is the
exact first difference `c_arr[1] - c_arr[0]` (`IndexError` on a
too-short axis).  Otherwise `diffs = np.unique(np.diff(c_arr))`; missing
tolerance components fall back to the defaults; the code raises
`ValueError("Resolution is inconsistent")` when
`diffs.ptp() > atol + np.abs(diffs.min()) * rtol`
(`ptp` is `max - min`; numpy raises on reducing an empty `diffs`), and
otherwise takes `res = diffs[0]`, the first — hence smallest — distinct
difference.  Either way the `res <= 0` monotonicity check runs last. -/
def axisNumericRes (coords : List ℚ) (tol : Option (Option ℚ × Option ℚ)) : Except PyErr ℚ :=
  match tol with
  | none =>
    match coords with
    | c0 :: c1 :: _ => resCheck (c1 - c0)
    | _ => .error .indexError
  | some (rtolOpt, atolOpt) =>
    let rtol := rtolOpt.getD DEFAULT_RTOL
    let atol := atolOpt.getD DEFAULT_ATOL
    match npUnique (npDiff coords) with
    | [] => .error .zeroSizeReduction
    | d0 :: rest =>
      if foldMax (d0 :: rest) - foldMin (d0 :: rest) >
          atol + |foldMin (d0 :: rest)| * rtol then .error .inconsistent
      else resCheck d0

/-- Modelled from the spec: the claim's tolerance bound uses
"`min(|diffs|)`", the smallest absolute difference (whereas the code
computes `np.abs(diffs.min())`, the absolute value of the smallest
difference). -/
def specMinAbsDiff (l : List ℚ) : ℚ := foldMin (l.map abs)

theorem insertSorted_ne_nil (x : ℚ) (l : List ℚ) : insertSorted x l ≠ [] := by
  cases l with
  | nil => simp [insertSorted]
  | cons y ys =>
    unfold insertSorted
    split <;> simp

theorem sortAsc_eq_nil_iff (l : List ℚ) : sortAsc l = [] ↔ l = [] := by
  cases l with
  | nil => simp [sortAsc]
  | cons x xs =>
    simp only [sortAsc]
    exact ⟨fun h => absurd h (insertSorted_ne_nil x (sortAsc xs)), fun h => List.noConfusion h⟩

theorem mem_insertSorted (a x : ℚ) (l : List ℚ) :
    a ∈ insertSorted x l ↔ a = x ∨ a ∈ l := by
  induction l with
  | nil => simp [insertSorted]
  | cons y ys ih =>
    unfold insertSorted
    split
    · simp
    · simp only [List.mem_cons, ih]
      tauto

theorem mem_sortAsc (a : ℚ) (l : List ℚ) : a ∈ sortAsc l ↔ a ∈ l := by
  induction l with
  | nil => simp [sortAsc]
  | cons x xs ih =>
    simp only [sortAsc, mem_insertSorted, ih, List.mem_cons]

theorem sortAsc_head_le (l : List ℚ) (y : ℚ) (ys : List ℚ) (h : sortAsc l = y :: ys) :
    ∀ z ∈ l, y ≤ z := by
  induction l generalizing y ys with
  | nil => simp [sortAsc] at h
  | cons x xs ih =>
    simp only [sortAsc] at h
    rcases hs : sortAsc xs with _ | ⟨w, ws⟩
    · rw [hs] at h
      simp only [insertSorted] at h
      obtain rfl : y = x := ((List.cons.injEq ..).mp h).1.symm
      have hxs : xs = [] := (sortAsc_eq_nil_iff xs).mp hs
      subst hxs
      intro z hz
      simp only [List.mem_cons, List.not_mem_nil, or_false] at hz
      exact le_of_eq hz.symm
    · rw [hs] at h
      have hw : ∀ z ∈ xs, w ≤ z := ih w ws hs
      simp only [insertSorted] at h
      split at h
      · next hxw =>
        obtain rfl : y = x := ((List.cons.injEq ..).mp h).1.symm
        intro z hz
        rcases List.mem_cons.mp hz with rfl | hz2
        · exact le_refl z
        · exact le_trans hxw (hw z hz2)
      · next hxw =>
        obtain rfl : y = w := ((List.cons.injEq ..).mp h).1.symm
        intro z hz
        rcases List.mem_cons.mp hz with rfl | hz2
        · exact le_of_lt (lt_of_not_le hxw)
        · exact hw z hz2

theorem dedupAdj_head? (l : List ℚ) : (dedupAdj l).head? = l.head? := by
  induction l using dedupAdj.induct with
  | case1 => rfl
  | case2 x => rfl
  | case3 y ys ih =>
    rw [show dedupAdj (y :: y :: ys) = dedupAdj (y :: ys) from by simp [dedupAdj], ih]
    rfl
  | case4 x y ys hne ih =>
    rw [show dedupAdj (x :: y :: ys) = x :: dedupAdj (y :: ys) from by simp [dedupAdj, hne]]
    rfl

theorem mem_dedupAdj (a : ℚ) (l : List ℚ) : a ∈ dedupAdj l → a ∈ l := by
  induction l using dedupAdj.induct with
  | case1 => simp [dedupAdj]
  | case2 x => simp [dedupAdj]
  | case3 y ys ih =>
    rw [show dedupAdj (y :: y :: ys) = dedupAdj (y :: ys) from by simp [dedupAdj]]
    intro h
    exact List.mem_cons_of_mem y (ih h)
  | case4 x y ys hne ih =>
    rw [show dedupAdj (x :: y :: ys) = x :: dedupAdj (y :: ys) from by simp [dedupAdj, hne]]
    intro h
    rcases List.mem_cons.mp h with rfl | h2
    · exact List.mem_cons_self a (y :: ys)
    · exact List.mem_cons_of_mem x (ih h2)

theorem dedupAdj_ne_nil (l : List ℚ) (h : l ≠ []) : dedupAdj l ≠ [] := by
  induction l using dedupAdj.induct with
  | case1 => exact absurd rfl h
  | case2 x => simp [dedupAdj]
  | case3 y ys ih =>
    rw [show dedupAdj (y :: y :: ys) = dedupAdj (y :: ys) from by simp [dedupAdj]]
    exact ih (List.cons_ne_nil _ _)
  | case4 x y ys hne ih =>
    rw [show dedupAdj (x :: y :: ys) = x :: dedupAdj (y :: ys) from by simp [dedupAdj, hne]]
    exact List.cons_ne_nil _ _

theorem foldl_min_of_le (a : ℚ) (l : List ℚ) (h : ∀ z ∈ l, a ≤ z) :
    l.foldl min a = a := by
  induction l generalizing a with
  | nil => rfl
  | cons z zs ih =>
    rw [List.foldl_cons, min_eq_left (h z (List.mem_cons_self z zs))]
    exact ih a (fun w hw => h w (List.mem_cons_of_mem z hw))

theorem npDiff_length (xs : List ℚ) : (npDiff xs).length = xs.length - 1 := by
  simp only [npDiff, List.length_zipWith, List.length_tail]
  omega

/-- The head of `np.unique(xs)` is its minimum: `npUnique` sorts
ascending, so `diffs[0]` and `diffs.min()` agree. -/
theorem npUnique_head_eq_foldMin (xs : List ℚ) (d0 : ℚ) (rest : List ℚ)
    (h : npUnique xs = d0 :: rest) : rest.foldl min d0 = d0 := by
  apply foldl_min_of_le
  intro z hz
  have hzu : z ∈ npUnique xs := by
    rw [h]
    exact List.mem_cons_of_mem d0 hz
  have hz_sort : z ∈ sortAsc xs := mem_dedupAdj z (sortAsc xs) hzu
  rcases hs : sortAsc xs with _ | ⟨y, ys⟩
  · rw [hs] at hz_sort
    exact absurd hz_sort (List.not_mem_nil z)
  · have hhead : (npUnique xs).head? = (sortAsc xs).head? := dedupAdj_head? (sortAsc xs)
    rw [h, hs] at hhead
    obtain rfl : d0 = y := by simpa using hhead
    rw [hs] at hz_sort
    exact sortAsc_head_le xs d0 ys hs z ((mem_sortAsc z xs).mp (hs ▸ hz_sort))

/-- C3 counterexample: the claim predicts an inconsistent-spacing error
exactly when the spread exceeds `atol + rtol * min(|diffs|)`.  For
coordinates `[0, -5, -4]` with `(rtol, atol) = (2, 0)` the distinct
differences are `[-5, 1]`: the spread `6` exceeds the claim's bound
`0 + 2 * min(5, 1) = 2`, yet the code compares against
`0 + |−5| * 2 = 10`, passes the check, and raises the non-monotonic
error instead. -/
theorem claim3_counterexample :
    axisNumericRes [0, -5, -4] (some (some 2, some 0)) = .error PyErr.nonMonotonic ∧
    foldMax (npUnique (npDiff [0, -5, -4])) - foldMin (npUnique (npDiff [0, -5, -4])) >
      0 + 2 * specMinAbsDiff (npUnique (npDiff [0, -5, -4])) ∧
    PyErr.nonMonotonic ≠ PyErr.inconsistent := by
  refine ⟨?_, ?_, by decide⟩
  · norm_num [axisNumericRes, npUnique, npDiff, sortAsc, insertSorted, dedupAdj,
      foldMin, foldMax, resCheck]
  · norm_num [npUnique, npDiff, sortAsc, insertSorted, dedupAdj, foldMin, foldMax,
      specMinAbsDiff]

/-- C3 (amended): with a `(rtol, atol)` tolerance pair supplied (missing
components defaulting to `1e-5` / `1e-8`), the derivation fails with the
inconsistent-spacing error exactly when the spread (`ptp`) of the
distinct consecutive differences exceeds
`atol + |min(diffs)| * rtol` — the absolute value of the smallest
difference, not the smallest absolute difference; otherwise the
resolution is the smallest distinct difference, failing with the
non-monotonic error when it is not strictly positive.  With tolerance
omitted the resolution is the exact first difference, subject to the
same positivity check. -/
theorem claim3_spacing_amended (coords : List ℚ) (rtolOpt atolOpt : Option ℚ)
    (h2 : 2 ≤ coords.length) :
    (axisNumericRes coords (some (rtolOpt, atolOpt)) = .error .inconsistent ↔
      foldMax (npUnique (npDiff coords)) - foldMin (npUnique (npDiff coords)) >
        atolOpt.getD DEFAULT_ATOL +
          |foldMin (npUnique (npDiff coords))| * rtolOpt.getD DEFAULT_RTOL) ∧
    (foldMax (npUnique (npDiff coords)) - foldMin (npUnique (npDiff coords)) ≤
        atolOpt.getD DEFAULT_ATOL +
          |foldMin (npUnique (npDiff coords))| * rtolOpt.getD DEFAULT_RTOL →
      (foldMin (npUnique (npDiff coords)) ≤ 0 →
        axisNumericRes coords (some (rtolOpt, atolOpt)) = .error .nonMonotonic) ∧
      (0 < foldMin (npUnique (npDiff coords)) →
        axisNumericRes coords (some (rtolOpt, atolOpt)) =
          .ok (foldMin (npUnique (npDiff coords))))) ∧
    (∀ c0 c1 r2, coords = c0 :: c1 :: r2 →
      axisNumericRes coords none = resCheck (c1 - c0)) := by
  have hdne : npDiff coords ≠ [] := by
    intro h
    have hl := npDiff_length coords
    rw [h] at hl
    simp only [List.length_nil] at hl
    omega
  have hsne : sortAsc (npDiff coords) ≠ [] := by
    intro h
    exact hdne ((sortAsc_eq_nil_iff (npDiff coords)).mp h)
  have hune : npUnique (npDiff coords) ≠ [] := dedupAdj_ne_nil _ hsne
  rcases hu : npUnique (npDiff coords) with _ | ⟨d0, rest⟩
  · exact absurd hu hune
  have hfmin : foldMin (d0 :: rest) = d0 := npUnique_head_eq_foldMin _ _ _ hu
  have hres : axisNumericRes coords (some (rtolOpt, atolOpt)) =
      (if foldMax (d0 :: rest) - foldMin (d0 :: rest) >
          atolOpt.getD DEFAULT_ATOL +
            |foldMin (d0 :: rest)| * rtolOpt.getD DEFAULT_RTOL then
        (.error .inconsistent : Except PyErr ℚ)
      else resCheck d0) := by
    simp only [axisNumericRes, hu]
  rw [hres]
  refine ⟨?_, ?_, ?_⟩
  · by_cases hc : foldMax (d0 :: rest) - foldMin (d0 :: rest) >
        atolOpt.getD DEFAULT_ATOL + |foldMin (d0 :: rest)| * rtolOpt.getD DEFAULT_RTOL
    · rw [if_pos hc]
      exact ⟨fun _ => hc, fun _ => rfl⟩
    · rw [if_neg hc]
      constructor
      · intro h
        unfold resCheck at h
        split at h
        · exact absurd (Except.error.inj h) (fun he => PyErr.noConfusion he)
        · exact Except.noConfusion h
      · intro h
        exact absurd h hc
  · intro hle
    have hc : ¬ (foldMax (d0 :: rest) - foldMin (d0 :: rest) >
        atolOpt.getD DEFAULT_ATOL + |foldMin (d0 :: rest)| * rtolOpt.getD DEFAULT_RTOL) :=
      not_lt.mpr hle
    rw [if_neg hc]
    constructor
    · intro hle0
      rw [hfmin] at hle0
      unfold resCheck
      rw [if_pos hle0]
    · intro hpos
      rw [hfmin] at hpos
      unfold resCheck
      rw [if_neg (not_le.mpr hpos), hfmin]
  · intro c0 c1 r2 hceq
    subst hceq
    rfl

/-- C3 witness: uniformly spaced coordinates `[0, 2, 4, 6]` with
`(rtol, atol) = (1, 0)` pass the spacing check and yield resolution 2. -/
theorem claim3_witness :
    axisNumericRes [0, 2, 4, 6] (some (some 1, some 0)) = .ok 2 := by
  have hval : foldMin (npUnique (npDiff [0, 2, 4, 6])) = 2 := by
    norm_num [npUnique, npDiff, sortAsc, insertSorted, dedupAdj, foldMin]
  have hmax : foldMax (npUnique (npDiff [0, 2, 4, 6])) = 2 := by
    norm_num [npUnique, npDiff, sortAsc, insertSorted, dedupAdj, foldMax]
  have h := ((claim3_spacing_amended [0, 2, 4, 6] (some 1) (some 0) (by decide)).2.1
    (by rw [hval, hmax]; norm_num)).2 (by rw [hval]; norm_num)
  rw [hval] at h
  exact h

/-- A concrete chain-dialect metadata value used as a witness input. -/
def msExample : Multiscale :=
  ⟨[⟨"x", some "space", some "nm"⟩, ⟨"y", some "space", some "nm"⟩],
   [⟨"s0", [.vectorScale [1, 2]]⟩],
   some [.vectorTranslation [3, 4]]⟩

/-- A concrete chain-dialect attrs value used as a witness input. -/
def maExample : MultiscaleAttrs := ⟨[msExample]⟩

/-- C9 witness: the frame property at a concrete store (`msExample` at
id 0, fresh id 1; `maExample` at id 5, fresh id 7). -/
theorem claim9_witness :
    storeGet (reverseRefCall reverse_multiscale [(0, msExample)] 0 false 1).1 0 =
      some msExample ∧
    (reverseRefCall reverse_multiscale [(0, msExample)] 0 false 1).2 ≠ 0 ∧
    storeGet (reverseRefCall reverse_multiscale_attrs [(5, maExample)] 5 false 7).1
        (reverseRefCall reverse_multiscale_attrs [(5, maExample)] 5 false 7).2 =
      some (reverse_multiscale_attrs maExample) := by
  have H := claim9_reverse_copy_frame [(0, msExample)] [(5, maExample)] 0 5 1 7
    msExample maExample rfl rfl
    (fun p hp => by rcases List.mem_singleton.mp hp with rfl; decide)
    (fun p hp => by rcases List.mem_singleton.mp hp with rfl; decide)
    (by decide) (by decide)
  exact ⟨H.1.1, H.1.2.1, H.2.2.2⟩

/-! ## `ArrayInfo` (utils.py:69-136) -/

/-- A Python value as passed to the `ArrayInfo` NamedTuple constructor:
the per-axis dicts built by the `from_xarray` loop and the axis-order
list. -/
inductive Val where
  | qdict (d : List (String × Option ℚ))
  | sdict (d : List (String × Option String))
  | ndict (d : List (String × Nat))
  | slist (l : List String)
  deriving DecidableEq, Repr

/-- The required fields of the `ArrayInfo` NamedTuple, in declaration
order (utils.py:69-74): `offset, resolution, units, shape, order`. -/
def arrayInfoFields : List String :=
  ["offset", "resolution", "units", "shape", "order"]

/-- Python NamedTuple construction with positional arguments: arguments
bind to fields in order, and a missing (or surplus) required argument
raises `TypeError` at call time. -/
def namedTupleNew (fields : List String) (args : List Val) :
    Except PyErr (List (String × Val)) :=
  if args.length = fields.length then .ok (fields.zip args) else .error .typeError

/-- Whether an `Except` computation succeeded. -/
def exceptIsOk : Except ε α → Bool
  | .ok _ => true
  | .error _ => false

/-- One coordinate array of a labeled input array: either numeric values
(`np.issubdtype(c_arr.dtype, np.number)` true) or label strings. -/
inductive AxisCoords where
  | nums (xs : List ℚ)
  | labels (ls : List String)
  deriving DecidableEq, Repr

/-- One coordinate axis of the labeled array handed to
`ArrayInfo.from_xarray`: dimension name, coordinate array, and the value
of its `"unit"` attribute (`UNITS_ATTR`, utils.py:6). -/
structure AxisIn where
  name : String
  coords : AxisCoords
  unitAttr : Option String
  deriving DecidableEq, Repr

/-- `len(c_arr)`. -/
def axisLen : AxisCoords → Nat
  | .nums xs => xs.length
  | .labels ls => ls.length

/-- The five accumulators built by the loop of `ArrayInfo.from_xarray`
(utils.py:98-102); Python dicts are kept as insertion-ordered association
lists (xarray dimension names are unique, so no key is written twice). -/
structure LoopAcc where
  offset : List (String × Option ℚ)
  resolution : List (String × Option ℚ)
  units : List (String × Option String)
  shape : List (String × Nat)
  order : List String
  deriving DecidableEq, Repr

/-- One iteration of the per-axis loop of `ArrayInfo.from_xarray`
(utils.py:104-134): record order, shape and unit; a non-numeric axis gets
`None` offset and resolution; a numeric axis records `c_arr[0]` as offset
(`IndexError` when empty) and derives the resolution via
`axisNumericRes`, propagating its errors. -/
def fromXarrayStep (tol : Option (Option ℚ × Option ℚ)) (acc : LoopAcc) (ax : AxisIn) :
    Except PyErr LoopAcc :=
  let acc1 : LoopAcc :=
    { acc with
        order := acc.order ++ [ax.name]
        shape := acc.shape ++ [(ax.name, axisLen ax.coords)]
        units := acc.units ++ [(ax.name, ax.unitAttr)] }
  match ax.coords with
  | .labels _ =>
    .ok { acc1 with
            offset := acc1.offset ++ [(ax.name, none)]
            resolution := acc1.resolution ++ [(ax.name, none)] }
  | .nums xs =>
    match xs with
    | [] => .error .indexError
    | x0 :: _ =>
      match axisNumericRes xs tol with
      | .error e => .error e
      | .ok r =>
        .ok { acc1 with
                offset := acc1.offset ++ [(ax.name, some x0)]
                resolution := acc1.resolution ++ [(ax.name, some r)] }

/-- The whole per-axis loop of `ArrayInfo.from_xarray`. -/
def fromXarrayLoop (axes : List AxisIn) (tol : Option (Option ℚ × Option ℚ)) :
    Except PyErr LoopAcc :=
  axes.foldlM (fromXarrayStep tol) ⟨[], [], [], [], []⟩

/-- The `ArrayInfo` NamedTuple record (utils.py:69-74). -/
structure ArrayInfo where
  offset : List (String × Option ℚ)
  resolution : List (String × Option ℚ)
  units : List (String × Option String)
  shape : List (String × Nat)
  order : List String
  deriving DecidableEq, Repr

/-- `ArrayInfo.from_xarray` (utils.py:94-136): run the per-axis loop and
finish with `return cls(offset, resolution, units, order)` — four
positional arguments for the five required NamedTuple fields (`shape` is
never passed, so `order` binds positionally to `shape` and the field
`order` is left missing). -/
def ArrayInfo.from_xarray (axes : List AxisIn) (tol : Option (Option ℚ × Option ℚ)) :
    Except PyErr (List (String × Val)) := do
  let acc ← fromXarrayLoop axes tol
  namedTupleNew arrayInfoFields
    [Val.qdict acc.offset, Val.qdict acc.resolution, Val.sdict acc.units,
     Val.slist acc.order]

/-- `ArrayInfo.reverse_order` (utils.py:91-92):
`type(self)(self.offset, self.resolution, self.units, self.order[::-1])` —
again four positional arguments for five required fields. -/
def ArrayInfo.reverse_order (info : ArrayInfo) : Except PyErr (List (String × Val)) :=
  namedTupleNew arrayInfoFields
    [Val.qdict info.offset, Val.qdict info.resolution, Val.sdict info.units,
     Val.slist info.order.reverse]

/-- C4: whenever the per-axis loop of `ArrayInfo.from_xarray` raises no
validation error, the final constructor call still fails with `TypeError`
(four positional arguments for the five required fields), so
`from_xarray` never returns an `ArrayInfo` value; and
`ArrayInfo.reverse_order` fails the same way for every instance. -/
theorem claim4_constructor_arity :
    (∀ axes tol, exceptIsOk (fromXarrayLoop axes tol) = true →
      ArrayInfo.from_xarray axes tol = .error .typeError) ∧
    (∀ info : ArrayInfo, info.reverse_order = .error .typeError) := by
  constructor
  · intro axes tol h
    unfold ArrayInfo.from_xarray
    rcases hl : fromXarrayLoop axes tol with e | acc
    · rw [hl] at h
      simp [exceptIsOk] at h
    · simp [Bind.bind, Except.bind, namedTupleNew, arrayInfoFields]
  · intro info
    simp [ArrayInfo.reverse_order, namedTupleNew, arrayInfoFields]

/-- C4 witness: a one-axis labeled array (a categorical axis, so the loop
trivially succeeds) on which `from_xarray` still fails with `TypeError`. -/
theorem claim4_witness :
    exceptIsOk (fromXarrayLoop [⟨"x", .labels ["a", "b"], some "nm"⟩] none) = true ∧
    ArrayInfo.from_xarray [⟨"x", .labels ["a", "b"], some "nm"⟩] none =
      .error .typeError := by
  refine ⟨by rfl, claim4_constructor_arity.1 [⟨"x", .labels ["a", "b"], some "nm"⟩] none
    (by rfl)⟩

/-! ## Viewer-dialect metadata parsing (ngl_n5.py:15-142) -/

/-- `PixelResolution` (ngl_n5.py:43-48). -/
structure PixelResolution where
  unit : String
  dimensions : List ℚ
  deriving DecidableEq, Repr

/-- The raw attribute mapping of the zarr group (`group.attrs`),
restricted to the fields the two viewer-dialect pydantic models read:
`none` means the key is absent (or not of the required shape — pydantic
rejects both with a `ValidationError` at field validation).  Extra keys
are ignored, per pydantic's default config. -/
structure RawAttrs where
  axes : Option (List String)
  coordinateArrays : Option (List (String × List String))
  scales : Option (List (List ℚ))
  pixelResolution : Option PixelResolution
  downsamplingFactors : Option (List (List ℚ))
  resolution : Option (List ℚ)
  units : Option (List String)
  deriving DecidableEq, Repr

/-- `values[key]` on the partial values dict pydantic v1 hands to the
post root validators: a required field that was absent (or failed field
validation) is missing from the dict and indexing it raises `KeyError`.
pydantic v1 wraps only `ValueError`, `TypeError` and `AssertionError`
raised inside a validator into the final `ValidationError`; a `KeyError`
escapes `parse_obj` uncaught. -/
def valuesIdx : Option α → Except PyErr α
  | some a => .ok a
  | none => .error .keyError

/-- `SharedMetadata.check_axes` (ngl_n5.py:21-35): nothing to validate
when `coordinateArrays` is falsy (absent or empty dict); otherwise `axes`
must be given and every `coordinateArrays` key must occur in it.  It
reads both fields with `values.get(...)`, which is total, so its only
failure is the `raise ValueError`, wrapped into the `ValidationError`. -/
def check_axes (axes : Option (List String))
    (coordinateArrays : Option (List (String × List String))) : Except PyErr Unit :=
  match coordinateArrays with
  | none => .ok ()
  | some ca =>
    if ca.isEmpty then .ok ()
    else
      match axes with
      | none => .error .validation
      | some ax =>
        if ca.all (fun kv => ax.contains kv.1) then .ok () else .error .validation

/-- `N5ViewerMetadata.check_ndim` (ngl_n5.py:55-71) as pydantic v1 runs
it on the partial values dict: `values.get("axes")` is total (an optional
field defaults to `None`), but `values["pixelResolution"]` (line 61) and
`values["scales"]` (line 67) raise `KeyError` when the required field is
missing; each `raise ValueError` becomes part of the `ValidationError`. -/
def check_ndim_n5v (axes : Option (List String))
    (scalesVal : Option (List (List ℚ))) (prVal : Option PixelResolution) :
    Except PyErr Unit := do
  let pr ← valuesIdx prVal
  let ndim := (axes.map List.length).getD pr.dimensions.length
  if axes.isSome && (ndim != pr.dimensions.length) then .error .validation
  else do
    let scales ← valuesIdx scalesVal
    if scales.any (fun row => row.length != ndim) then .error .validation
    else .ok ()

/-- `BigDataViewerMetadata.check_ndim` (ngl_n5.py:123-142) on the partial
values dict: `values["resolution"]` (line 129), `values["units"]`
(line 135) and `values["downsamplingFactors"]` (line 138) raise
`KeyError` when the field is missing, in that order. -/
def check_ndim_bdv (axes : Option (List String))
    (dfVal : Option (List (List ℚ))) (resVal : Option (List ℚ))
    (usVal : Option (List String)) : Except PyErr Unit := do
  let res ← valuesIdx resVal
  let ndim := (axes.map List.length).getD res.length
  if axes.isSome && (ndim != res.length) then .error .validation
  else do
    let us ← valuesIdx usVal
    if ndim != us.length then .error .validation
    else do
      let df ← valuesIdx dfVal
      if df.any (fun row => row.length != ndim) then .error .validation
      else .ok ()

/-- `N5ViewerMetadata` (ngl_n5.py:51-115): the resolution-vector viewer
variant. -/
structure N5ViewerMetadata where
  axes : Option (List String)
  coordinateArrays : Option (List (String × List String))
  scales : List (List ℚ)
  pixelResolution : PixelResolution
  deriving DecidableEq, Repr

/-- `BigDataViewerMetadata` (ngl_n5.py:118-191): the downsampling-factor
viewer variant. -/
structure BigDataViewerMetadata where
  axes : Option (List String)
  coordinateArrays : Option (List (String × List String))
  downsamplingFactors : List (List ℚ)
  resolution : List ℚ
  units : List String
  deriving DecidableEq, Repr

/-- `N5ViewerMetadata.parse_obj` as pydantic v1's `validate_model`
executes it: field validation records an error for a missing or
malformed required field but does not stop; the post root validators
then run in declaration order on the partial values (`check_axes` from
the base class, then `check_ndim`) — a `ValueError` from a validator is
recorded (and stops later validators), while a `KeyError` escapes
uncaught; finally a `ValidationError` is raised when any field or
validator error was recorded.  For the optional fields (`axes`,
`coordinateArrays`) `none` models an absent key, which pydantic defaults
to `None` without error. -/
def N5ViewerMetadata.parse_obj (a : RawAttrs) : Except PyErr N5ViewerMetadata := do
  let _ ← check_axes a.axes a.coordinateArrays
  let _ ← check_ndim_n5v a.axes a.scales a.pixelResolution
  match a.scales, a.pixelResolution with
  | some scales, some pr => .ok ⟨a.axes, a.coordinateArrays, scales, pr⟩
  | _, _ => .error .validation

/-- `BigDataViewerMetadata.parse_obj`: as above with the
downsampling-variant fields. -/
def BigDataViewerMetadata.parse_obj (a : RawAttrs) :
    Except PyErr BigDataViewerMetadata := do
  let _ ← check_axes a.axes a.coordinateArrays
  let _ ← check_ndim_bdv a.axes a.downsamplingFactors a.resolution a.units
  match a.downsamplingFactors, a.resolution, a.units with
  | some df, some res, some us => .ok ⟨a.axes, a.coordinateArrays, df, res, us⟩
  | _, _, _ => .error .validation

theorem check_axes_error (axes : Option (List String))
    (ca : Option (List (String × List String))) (e : PyErr)
    (h : check_axes axes ca = .error e) : e = .validation := by
  rcases ca with _ | l
  · simp [check_axes] at h
  · rcases axes with _ | ax
    · simp only [check_axes] at h
      split_ifs at h <;>
        first
          | exact (Except.error.inj h).symm
          | exact Except.noConfusion h
    · simp only [check_axes] at h
      split_ifs at h <;>
        first
          | exact (Except.error.inj h).symm
          | exact Except.noConfusion h

theorem check_ndim_n5v_ok (axes : Option (List String))
    (scalesVal : Option (List (List ℚ))) (prVal : Option PixelResolution)
    (h : check_ndim_n5v axes scalesVal prVal = .ok ()) :
    ∃ scales pr, scalesVal = some scales ∧ prVal = some pr ∧
      (∀ ax, axes = some ax → ax.length = pr.dimensions.length) ∧
      ∀ row ∈ scales, row.length = pr.dimensions.length := by
  rcases prVal with _ | pr
  · exact absurd h (by simp [check_ndim_n5v, valuesIdx, Bind.bind, Except.bind])
  rcases scalesVal with _ | scales
  · exfalso
    unfold check_ndim_n5v at h
    simp only [valuesIdx, Bind.bind, Except.bind] at h
    split_ifs at h <;> exact Except.noConfusion h
  have hfacts : (∀ ax, axes = some ax → ax.length = pr.dimensions.length) ∧
      ∀ row ∈ scales, row.length = pr.dimensions.length := by
    unfold check_ndim_n5v at h
    simp only [valuesIdx, Bind.bind, Except.bind] at h
    cases axes with
    | none =>
      simp only [Option.map_none', Option.getD_none, Option.isSome_none,
        Bool.false_and, Bool.false_eq_true, if_false] at h
      split_ifs at h with h1
      refine ⟨fun ax hax => Option.noConfusion hax, ?_⟩
      intro row hrow
      simp only [List.any_eq_true, bne_iff_ne] at h1
      push_neg at h1
      exact h1 row hrow
    | some ax =>
      simp only [Option.map_some', Option.getD_some, Option.isSome_some,
        Bool.true_and] at h
      split_ifs at h with h1 h2
      have hax_dims : ax.length = pr.dimensions.length := by
        simp only [bne_iff_ne] at h1
        exact not_ne_iff.mp h1
      refine ⟨fun ax2 hax2 => ?_, ?_⟩
      · injection hax2 with he
        subst he
        exact hax_dims
      · intro row hrow
        simp only [List.any_eq_true, bne_iff_ne] at h2
        push_neg at h2
        exact (h2 row hrow).trans hax_dims
  exact ⟨scales, pr, rfl, rfl, hfacts.1, hfacts.2⟩

theorem check_ndim_bdv_ok (axes : Option (List String))
    (dfVal : Option (List (List ℚ))) (resVal : Option (List ℚ))
    (usVal : Option (List String))
    (h : check_ndim_bdv axes dfVal resVal usVal = .ok ()) :
    ∃ df res us, dfVal = some df ∧ resVal = some res ∧ usVal = some us ∧
      (∀ ax, axes = some ax → ax.length = res.length) ∧
      us.length = res.length ∧ ∀ row ∈ df, row.length = res.length := by
  rcases resVal with _ | res
  · exact absurd h (by simp [check_ndim_bdv, valuesIdx, Bind.bind, Except.bind])
  rcases usVal with _ | us
  · exfalso
    unfold check_ndim_bdv at h
    simp only [valuesIdx, Bind.bind, Except.bind] at h
    split_ifs at h <;> exact Except.noConfusion h
  rcases dfVal with _ | df
  · exfalso
    unfold check_ndim_bdv at h
    simp only [valuesIdx, Bind.bind, Except.bind] at h
    split_ifs at h <;> exact Except.noConfusion h
  have hfacts : (∀ ax, axes = some ax → ax.length = res.length) ∧
      us.length = res.length ∧ ∀ row ∈ df, row.length = res.length := by
    unfold check_ndim_bdv at h
    simp only [valuesIdx, Bind.bind, Except.bind] at h
    cases axes with
    | none =>
      simp only [Option.map_none', Option.getD_none, Option.isSome_none,
        Bool.false_and, Bool.false_eq_true, if_false] at h
      split_ifs at h with h1 h2
      refine ⟨fun ax hax => Option.noConfusion hax, ?_, ?_⟩
      · simp only [bne_iff_ne] at h1
        exact (not_ne_iff.mp h1).symm
      · intro row hrow
        simp only [List.any_eq_true, bne_iff_ne] at h2
        push_neg at h2
        exact h2 row hrow
    | some ax =>
      simp only [Option.map_some', Option.getD_some, Option.isSome_some,
        Bool.true_and] at h
      split_ifs at h with h1 h2 h3
      have hax_res : ax.length = res.length := by
        simp only [bne_iff_ne] at h1
        exact not_ne_iff.mp h1
      refine ⟨fun ax2 hax2 => ?_, ?_, ?_⟩
      · injection hax2 with he
        subst he
        exact hax_res
      · simp only [bne_iff_ne] at h2
        exact (not_ne_iff.mp h2).symm.trans hax_res
      · intro row hrow
        simp only [List.any_eq_true, bne_iff_ne] at h3
        push_neg at h3
        exact (h3 row hrow).trans hax_res
  exact ⟨df, res, us, rfl, rfl, rfl, hfacts.1, hfacts.2.1, hfacts.2.2⟩

/-- With every required field present in the values dict, `check_ndim`
cannot raise `KeyError`: it either passes or raises the wrapped
`ValueError`. -/
theorem check_ndim_n5v_present (axes : Option (List String))
    (scales : List (List ℚ)) (pr : PixelResolution) :
    check_ndim_n5v axes (some scales) (some pr) = .ok () ∨
    check_ndim_n5v axes (some scales) (some pr) = .error .validation := by
  unfold check_ndim_n5v
  simp only [valuesIdx, Bind.bind, Except.bind]
  split_ifs <;> simp

/-- As `check_ndim_n5v_present`, for the downsampling variant. -/
theorem check_ndim_bdv_present (axes : Option (List String))
    (df : List (List ℚ)) (res : List ℚ) (us : List String) :
    check_ndim_bdv axes (some df) (some res) (some us) = .ok () ∨
    check_ndim_bdv axes (some df) (some res) (some us) = .error .validation := by
  unfold check_ndim_bdv
  simp only [valuesIdx, Bind.bind, Except.bind]
  split_ifs <;> simp

/-- Concrete well-formed downsampling-variant attrs used as a witness
input. -/
def bdvAttrsExample : RawAttrs :=
  ⟨some ["z", "y", "x"], none, none, none,
   some [[1, 1, 1], [2, 2, 2]], some [4, 4, 40], some ["nm", "nm", "nm"]⟩

/-- The metadata `bdvAttrsExample` parses to. -/
def bdvMetaExample : BigDataViewerMetadata :=
  ⟨some ["z", "y", "x"], none, [[1, 1, 1], [2, 2, 2]], [4, 4, 40], ["nm", "nm", "nm"]⟩

/-- Concrete well-formed resolution-variant attrs: the downsampling
fields are absent, so the first parse attempt's `check_ndim` indexes
`values["resolution"]` and raises `KeyError`. -/
def n5vAttrsExample : RawAttrs :=
  ⟨none, none, some [[1, 1], [2, 2]], some ⟨"nm", [4, 4]⟩, none, none, none⟩

/-- The metadata `n5vAttrsExample` would parse to under the
resolution-vector variant. -/
def n5vMetaExample : N5ViewerMetadata :=
  ⟨none, none, [[1, 1], [2, 2]], ⟨"nm", [4, 4]⟩⟩

/-- Attrs with all downsampling-variant fields present but a
dimensionality mismatch (a 2-wide factors row against a 1-dimensional
resolution vector). -/
def mismatchAttrsExample : RawAttrs :=
  ⟨none, none, none, none, some [[1, 1]], some [4], some ["nm"]⟩

/-- C7: a successful viewer-dialect parse forces every independently
derivable dimensionality to agree with `ndim`: the axis-name list length
(when present) and, for the downsampling variant, the per-axis unit-list
length and every `downsamplingFactors` row length all equal the
base-resolution vector length; for the resolution-vector variant the
axis-name list length (when present) and every `scales` row length equal
the `pixelResolution.dimensions` length.  And with the required fields
present (so that a length mismatch between them can exist at all), any
mismatch makes the parse fail with a `ValidationError`. -/
theorem claim7_ndim_agreement (a : RawAttrs) :
    (∀ m, BigDataViewerMetadata.parse_obj a = .ok m →
      (∀ ax, m.axes = some ax → ax.length = m.resolution.length) ∧
      m.units.length = m.resolution.length ∧
      ∀ row ∈ m.downsamplingFactors, row.length = m.resolution.length) ∧
    (∀ m, N5ViewerMetadata.parse_obj a = .ok m →
      (∀ ax, m.axes = some ax → ax.length = m.pixelResolution.dimensions.length) ∧
      ∀ row ∈ m.scales, row.length = m.pixelResolution.dimensions.length) ∧
    (∀ df res us, a.downsamplingFactors = some df → a.resolution = some res →
      a.units = some us →
      ¬((∀ ax, a.axes = some ax → ax.length = res.length) ∧
        us.length = res.length ∧ ∀ row ∈ df, row.length = res.length) →
      BigDataViewerMetadata.parse_obj a = .error .validation) ∧
    (∀ scales pr, a.scales = some scales → a.pixelResolution = some pr →
      ¬((∀ ax, a.axes = some ax → ax.length = pr.dimensions.length) ∧
        ∀ row ∈ scales, row.length = pr.dimensions.length) →
      N5ViewerMetadata.parse_obj a = .error .validation) := by
  refine ⟨?_, ?_, ?_, ?_⟩
  · intro m hm
    unfold BigDataViewerMetadata.parse_obj at hm
    rcases h1 : check_axes a.axes a.coordinateArrays with e1 | u1 <;> rw [h1] at hm <;>
      simp only [Bind.bind, Except.bind] at hm
    · exact Except.noConfusion hm
    rcases h2 : check_ndim_bdv a.axes a.downsamplingFactors a.resolution a.units
        with e2 | u2 <;> rw [h2] at hm <;>
      simp only [Bind.bind, Except.bind] at hm
    · exact Except.noConfusion hm
    obtain ⟨df, res, us, hdf, hres, hus, hfax, hfus, hfrows⟩ :=
      check_ndim_bdv_ok a.axes a.downsamplingFactors a.resolution a.units h2
    rw [hdf, hres, hus] at hm
    obtain rfl : (⟨a.axes, a.coordinateArrays, df, res, us⟩ : BigDataViewerMetadata) = m :=
      Except.ok.inj hm
    exact ⟨hfax, hfus, hfrows⟩
  · intro m hm
    unfold N5ViewerMetadata.parse_obj at hm
    rcases h1 : check_axes a.axes a.coordinateArrays with e1 | u1 <;> rw [h1] at hm <;>
      simp only [Bind.bind, Except.bind] at hm
    · exact Except.noConfusion hm
    rcases h2 : check_ndim_n5v a.axes a.scales a.pixelResolution with e2 | u2 <;>
      rw [h2] at hm <;> simp only [Bind.bind, Except.bind] at hm
    · exact Except.noConfusion hm
    obtain ⟨scales, pr, hsc, hpr, hfax, hfrows⟩ :=
      check_ndim_n5v_ok a.axes a.scales a.pixelResolution h2
    rw [hsc, hpr] at hm
    obtain rfl : (⟨a.axes, a.coordinateArrays, scales, pr⟩ : N5ViewerMetadata) = m :=
      Except.ok.inj hm
    exact ⟨hfax, hfrows⟩
  · intro df res us hdf hres hus hmis
    unfold BigDataViewerMetadata.parse_obj
    rcases h1 : check_axes a.axes a.coordinateArrays with e1 | u1 <;>
      simp only [Bind.bind, Except.bind]
    · rw [check_axes_error a.axes a.coordinateArrays e1 h1]
    rw [hdf, hres, hus]
    rcases check_ndim_bdv_present a.axes df res us with hok | herr
    · exfalso
      obtain ⟨df2, res2, us2, hdf2, hres2, hus2, hfax, hfus, hfrows⟩ :=
        check_ndim_bdv_ok a.axes (some df) (some res) (some us) hok
      obtain rfl : df = df2 := Option.some.inj hdf2
      obtain rfl : res = res2 := Option.some.inj hres2
      obtain rfl : us = us2 := Option.some.inj hus2
      exact hmis ⟨hfax, hfus, hfrows⟩
    · rw [herr]
  · intro scales pr hsc hpr hmis
    unfold N5ViewerMetadata.parse_obj
    rcases h1 : check_axes a.axes a.coordinateArrays with e1 | u1 <;>
      simp only [Bind.bind, Except.bind]
    · rw [check_axes_error a.axes a.coordinateArrays e1 h1]
    rw [hsc, hpr]
    rcases check_ndim_n5v_present a.axes scales pr with hok | herr
    · exfalso
      obtain ⟨scales2, pr2, hsc2, hpr2, hfax, hfrows⟩ :=
        check_ndim_n5v_ok a.axes (some scales) (some pr) hok
      obtain rfl : scales = scales2 := Option.some.inj hsc2
      obtain rfl : pr = pr2 := Option.some.inj hpr2
      exact hmis ⟨hfax, hfrows⟩
    · rw [herr]

/-- C7 witness: the dimensionality agreements at the concrete parsed
metadata, and the validation failure at a concrete mismatch. -/
theorem claim7_witness :
    (bdvMetaExample.units.length = bdvMetaExample.resolution.length ∧
      ∀ row ∈ bdvMetaExample.downsamplingFactors,
        row.length = bdvMetaExample.resolution.length) ∧
    (∀ row ∈ n5vMetaExample.scales,
      row.length = n5vMetaExample.pixelResolution.dimensions.length) ∧
    BigDataViewerMetadata.parse_obj mismatchAttrsExample = .error .validation := by
  have H1 := (claim7_ndim_agreement bdvAttrsExample).1 bdvMetaExample (by rfl)
  have H2 := (claim7_ndim_agreement n5vAttrsExample).2.1 n5vMetaExample (by rfl)
  have H3 := (claim7_ndim_agreement mismatchAttrsExample).2.2.1 [[1, 1]] [4] ["nm"]
    rfl rfl rfl
    (by
      intro hc
      exact absurd (hc.2.2 [1, 1] (by simp)) (by decide))
  exact ⟨⟨H1.2.1, H1.2.2⟩, H2.2, H3⟩

/-! ## `to_coords` (ngl_n5.py:76-107 and 147-183) -/

/-- One entry appended to the `coords` list by `to_coords`.  The n5-viewer
variant appends plain tuples — `(name, coord_arr)` in its override branch
and `(name, values, {"units": unit})` before its `xr.DataArray` — while
the BigDataViewer variant appends only `xr.DataArray`s (label-valued in
its override branch, numeric with a units attribute otherwise). -/
inductive CoordEntry where
  | tupleLabels (name : String) (labels : Option (List String))
  | tupleNums (name : String) (vals : List ℚ) (unitsAttr : String)
  | dataArr (name : String) (vals : List ℚ) (unitsAttr : Option String)
  | dataArrLabels (name : String) (labels : List String)
  deriving DecidableEq, Repr

/-- `SharedMetadata.coordinate_array` (ngl_n5.py:37-40): `None` unless
both `axes` and `coordinateArrays` are present, else the dict lookup of
the axis name. -/
def coordinate_array (axes : Option (List String))
    (coordinateArrays : Option (List (String × List String))) (axis : String) :
    Option (List String) :=
  match axes, coordinateArrays with
  | some _, some ca => (ca.find? (fun kv => kv.1 == axis)).map Prod.snd
  | _, _ => none

/-- Python list indexing with a nonnegative index (`IndexError` out of
range). -/
def listIdx (l : List α) (i : Nat) : Except PyErr α :=
  (l.get? i).elim (.error .indexError) .ok

/-- `N5ViewerMetadata.ndim` (ngl_n5.py:73-74). -/
def n5v_ndim (m : N5ViewerMetadata) : Nat := m.pixelResolution.dimensions.length

/-- `BigDataViewerMetadata.ndim` (ngl_n5.py:144-145). -/
def bdv_ndim (m : BigDataViewerMetadata) : Nat := m.resolution.length

/-- One iteration of the `N5ViewerMetadata.to_coords` loop
(ngl_n5.py:81-105), returning the entries appended for array axis `idx`.
When `axes` is given, the branch guard is `if coords is not None:` —
`coords` being the accumulating list, which is never `None` — so the
`(name, coord_arr)` tuple (with `coord_arr` possibly `None`) is always
appended and the iteration `continue`s, never reaching the computed
coordinates.  When `axes` is absent (name `dim_{idx}` is nonempty, so the
`if not name` rebinding cannot trigger), the loop appends BOTH the
leftover `(name, values, {"units": ...})` tuple AND the `xr.DataArray`
carrying the same values. -/
def n5vAxisStep (m : N5ViewerMetadata) (scale : List ℚ) (shape : List Nat)
    (idx : Nat) : Except PyErr (List CoordEntry) :=
  let n5_idx := n5v_ndim m - idx - 1
  match m.axes with
  | some ax => do
    let name ← listIdx ax n5_idx
    let coord_arr := coordinate_array m.axes m.coordinateArrays name
    .ok [CoordEntry.tupleLabels name coord_arr]
  | none => do
    let name := s!"dim_{idx}"
    let count ← listIdx shape idx
    let sc ← listIdx scale n5_idx
    let vals := (List.range count).map (fun i => (i : ℚ) * sc)
    .ok [CoordEntry.tupleNums name vals m.pixelResolution.unit,
         CoordEntry.dataArr name vals (some m.pixelResolution.unit)]

/-- `N5ViewerMetadata.to_coords` (ngl_n5.py:76-107): dimensionality
check, per-level scale `pixelResolution.dimensions * scales[scale_idx]`
(elementwise), then the per-axis loop over array storage order
(`n5_idx = ndim - idx - 1`). -/
def n5vToCoords (m : N5ViewerMetadata) (scale_idx : Nat) (shape : List Nat) :
    Except PyErr (List CoordEntry) :=
  if shape.length ≠ n5v_ndim m then .error .dimensionality
  else do
    let row ← listIdx m.scales scale_idx
    let scale := List.zipWith (fun a b => a * b) m.pixelResolution.dimensions row
    let chunks ← (List.range (n5v_ndim m)).mapM (n5vAxisStep m scale shape)
    .ok chunks.join

/-- The computed-coordinates tail shared by both branches of the
`BigDataViewerMetadata.to_coords` loop (ngl_n5.py:169-181): rename an
empty axis name to `dim_{idx}`, then append one `xr.DataArray` of
`arange(shape[idx]) * scale[n5_idx]` tagged with `units[n5_idx]`. -/
def bdvComputedEntry (m : BigDataViewerMetadata) (scale : List ℚ) (shape : List Nat)
    (idx n5_idx : Nat) (name : String) : Except PyErr (List CoordEntry) := do
  let name2 := if name = "" then s!"dim_{idx}" else name
  let count ← listIdx shape idx
  let sc ← listIdx scale n5_idx
  let vals := (List.range count).map (fun i => (i : ℚ) * sc)
  let unit ← listIdx m.units n5_idx
  .ok [CoordEntry.dataArr name2 vals (some unit)]

/-- One iteration of the `BigDataViewerMetadata.to_coords` loop
(ngl_n5.py:152-181): with `axes` given, an existing coordinate-label
override (`if coord_arr is not None:` — the corrected guard) is used
verbatim as a label-valued `xr.DataArray` (no units attribute); otherwise
the computed numeric coordinates are appended. -/
def bdvAxisStep (m : BigDataViewerMetadata) (scale : List ℚ) (shape : List Nat)
    (idx : Nat) : Except PyErr (List CoordEntry) :=
  let n5_idx := bdv_ndim m - idx - 1
  match m.axes with
  | none => bdvComputedEntry m scale shape idx n5_idx s!"dim_{idx}"
  | some ax => do
    let name ← listIdx ax n5_idx
    match coordinate_array m.axes m.coordinateArrays name with
    | some labels => .ok [CoordEntry.dataArrLabels name labels]
    | none => bdvComputedEntry m scale shape idx n5_idx name

/-- `BigDataViewerMetadata.to_coords` (ngl_n5.py:147-183): dimensionality
check, per-level scale `resolution * downsamplingFactors[scale_idx]`
(elementwise), then the per-axis loop over array storage order. -/
def bdvToCoords (m : BigDataViewerMetadata) (scale_idx : Nat) (shape : List Nat) :
    Except PyErr (List CoordEntry) :=
  if shape.length ≠ bdv_ndim m then .error .dimensionality
  else do
    let row ← listIdx m.downsamplingFactors scale_idx
    let scale := List.zipWith (fun a b => a * b) m.resolution row
    let chunks ← (List.range (bdv_ndim m)).mapM (bdvAxisStep m scale shape)
    .ok chunks.join

/-- C2 (failing evaluation): on resolution-vector viewer metadata with
`ndim = 1` (axes absent), `scales = [[1]]`, `pixelResolution =
{unit: "nm", dimensions: [4]}` and array shape `(2,)`, `to_coords`
returns TWO entries for the single axis — the leftover tuple and the
`xr.DataArray` with the same values — not the one descriptor per axis the
claim states; and with `axes = ["x"]` (no overrides) it returns the
override-branch tuple `("x", None)` instead of computed numeric
coordinates, because its guard tests `coords is not None` (the list)
rather than `coord_arr is not None`.  The BigDataViewer variant at the
matching input behaves exactly as the claim states (one computed
descriptor, unit-tagged). -/
theorem claim2_n5viewer_to_coords_failing_eval :
    n5vToCoords ⟨none, none, [[1]], ⟨"nm", [4]⟩⟩ 0 [2] =
      .ok [CoordEntry.tupleNums "dim_0" [0, 4] "nm",
           CoordEntry.dataArr "dim_0" [0, 4] (some "nm")] ∧
    n5v_ndim ⟨none, none, [[1]], ⟨"nm", [4]⟩⟩ = 1 ∧
    [CoordEntry.tupleNums "dim_0" [0, 4] "nm",
     CoordEntry.dataArr "dim_0" [0, 4] (some "nm")].length ≠ 1 ∧
    n5vToCoords ⟨some ["x"], none, [[1]], ⟨"nm", [4]⟩⟩ 0 [2] =
      .ok [CoordEntry.tupleLabels "x" none] ∧
    bdvToCoords ⟨none, none, [[1]], [4], ["nm"]⟩ 0 [2] =
      .ok [CoordEntry.dataArr "dim_0" [0, 4] (some "nm")] := by
  refine ⟨?_, rfl, by decide, ?_, ?_⟩
  · norm_num [n5vToCoords, n5vAxisStep, n5v_ndim, listIdx, coordinate_array,
      List.range_succ, List.mapM, List.mapM.loop, Bind.bind, Except.bind,
      Pure.pure, Except.pure, List.join, List.flatten, List.get?, Option.elim]
    constructor
    · decide
    · norm_num [List.singleton]
  · norm_num [n5vToCoords, n5vAxisStep, n5v_ndim, listIdx, coordinate_array,
      List.range_succ, List.mapM, List.mapM.loop, Bind.bind, Except.bind,
      Pure.pure, Except.pure, List.join, List.flatten, List.get?, Option.elim]
  · norm_num [bdvToCoords, bdvAxisStep, bdvComputedEntry, bdv_ndim, listIdx,
      coordinate_array, List.range_succ, List.mapM, List.mapM.loop, Bind.bind,
      Except.bind, Pure.pure, Except.pure, List.join, List.flatten, List.get?,
      Option.elim]
    constructor
    · decide
    · norm_num [List.singleton]
